import Mathlib

/-!
Verification of the `ip_diffim` PSF-matching core against its design
specification.

The C++ sources are shallowly embedded over exact rational arithmetic:

* dense Eigen matrices/vectors become functions `Fin n → Fin n → ℚ` and
  `Fin n → ℚ`;
* kernel images become `List ℚ` (row-major pixel lists);
* external fallible calls (the Eigen solver tiers, the eigendecomposition,
  the afw sub-image constructor) become `Option`-valued inputs;
* C++ `throw` becomes `Except.error`.

Each claim theorem carries a doc comment naming the claim.
-/

set_option maxHeartbeats 1000000

namespace IpDiffim

/-! ### Dense matrices and vectors (Eigen `MatrixXd` / `VectorXd`) -/

def Mat (n : ℕ) : Type := Fin n → Fin n → ℚ

def Vec (n : ℕ) : Type := Fin n → ℚ

def transposeM {n : ℕ} (A : Mat n) : Mat n := fun i j => A j i

def matMul {n : ℕ} (A B : Mat n) : Mat n := fun i j => ∑ k, A i k * B k j

def matAdd {n : ℕ} (A B : Mat n) : Mat n := fun i j => A i j + B i j

def smulM {n : ℕ} (c : ℚ) (A : Mat n) : Mat n := fun i j => c * A i j

def matVec {n : ℕ} (A : Mat n) (v : Vec n) : Vec n := fun i => ∑ k, A i k * v k

def traceM {n : ℕ} (A : Mat n) : ℚ := ∑ i, A i i

def diagM {n : ℕ} (v : Vec n) : Mat n := fun i j => if i = j then v i else 0

/-! ### C1 : the Tikhonov regularization step of `PsfMatchingFunctor::apply`

Transcription of `PsfMatchingFunctor::apply` lines 270-277 (the body of
`if (_regularize)`):

    Eigen::MatrixXd Mt = M.transpose();
    M = Mt * M;
    double lambda = M.trace() / _H->trace();
    lambda *= regularizationScaling;
    M = M + lambda * *_H;
    B = Mt * B;

Note that `lambda` is computed from the trace of `M` *after* `M` has been
overwritten by `Mt * M`.
-/

def regularize {n : ℕ} (M : Mat n) (B : Vec n) (H : Mat n)
    (regularizationScaling : ℚ) : Mat n × Vec n :=
  let Mt := transposeM M
  let M1 := matMul Mt M
  let lambda := traceM M1 / traceM H * regularizationScaling
  (matAdd M1 (smulM lambda H), matVec Mt B)

/-- Modelled from the spec wording of C1: "λ = trace(M) / trace(H) · scaling"
where M is the unregularized normal-equation matrix.  Comparison definition
only; the source computes the numerator from `Mᵀ·M` instead. -/
def specLambda {n : ℕ} (M : Mat n) (H : Mat n) (regularizationScaling : ℚ) : ℚ :=
  traceM M / traceM H * regularizationScaling

/-- The scale that the source actually uses: `trace(MᵀM)/trace(H) · scaling`. -/
def applyLambda {n : ℕ} (M : Mat n) (H : Mat n) (regularizationScaling : ℚ) : ℚ :=
  traceM (matMul (transposeM M) M) / traceM H * regularizationScaling

/-- The 1×1 matrix with entry 2, used as a concrete unregularized `M`. -/
def m1ex : Mat 1 := fun _ _ => 2

/-- The 1×1 identity, used as a concrete regularization matrix `H`. -/
def h1ex : Mat 1 := fun _ _ => 1

/-- The 1-vector with entry 1, used as a concrete `B`. -/
def b1ex : Vec 1 := fun _ => 1

/-- Claim C1, counterexample: at the 1×1 input `M = [2]`, `H = [1]`,
`scaling = 1`, the scale used by `regularize` is `trace(MᵀM)/trace(H) = 4`,
not the claimed `trace(M)/trace(H) = 2`, and the regularized matrix actually
solved is `[8] = MᵀM + 4·H`, not the claimed `[6] = MᵀM + 2·H`. -/
theorem regularize_lambda_counterexample :
    applyLambda m1ex h1ex 1 = 4 ∧ specLambda m1ex h1ex 1 = 2 ∧
    (regularize m1ex b1ex h1ex 1).1 0 0 = 8 ∧
    (matAdd (matMul (transposeM m1ex) m1ex)
      (smulM (specLambda m1ex h1ex 1) h1ex)) 0 0 = 6 ∧ (8 : ℚ) ≠ 6 := by
  refine ⟨?_, ?_, ?_, ?_, by norm_num⟩ <;>
    · simp only [applyLambda, specLambda, regularize, matAdd, matMul, smulM,
        transposeM, traceM, matVec, m1ex, h1ex, b1ex]
      norm_num

/-- Claim C1 (amended): with regularization enabled, `PsfMatchingFunctor::apply`
uses the Tikhonov scale `λ = trace(MᵀM)/trace(H) · regularizationScaling`
(trace of the *squared* normal-equation matrix), and then solves
`(MᵀM + λH) x = MᵀB`: entrywise, the matrix handed to the solver is
`(MᵀM)ᵢⱼ + λ·Hᵢⱼ` and the right-hand side is `(MᵀB)ᵢ`. -/
theorem regularize_apply_forms {n : ℕ} (M : Mat n) (B : Vec n) (H : Mat n)
    (scaling : ℚ) :
    (∀ i j, (regularize M B H scaling).1 i j =
      (∑ k, M k i * M k j) + applyLambda M H scaling * H i j) ∧
    (∀ i, (regularize M B H scaling).2 i = ∑ k, M k i * B k) := by
  constructor <;> intros <;> rfl

/-! ### C3 : the cascading linear solver

Both `PsfMatchingFunctor::apply` (lines 289-320) and
`BuildSpatialKernelVisitor::solveLinearEquation` (lines 777-839) solve
`M x = B` with the same nested fallback:

    ldlt -> llt -> lu -> SelfAdjointEigenSolver pseudo-inverse -> throw

Each Eigen tier is an external fallible call; it is embedded as an
`Option`-valued input (`none` = the tier failed).  The eigendecomposition
tier is embedded as an optional pair `(R, eigenvalues)`; on success the
source inverts each nonzero eigenvalue in place and returns
`R · diag(inverted) · Rᵀ · B`.
-/

def invertEigenvalues {n : ℕ} (eValues : Vec n) : Vec n :=
  fun i => if eValues i ≠ 0 then 1 / eValues i else eValues i

def eigenPseudoSolve {n : ℕ} (R : Mat n) (eValues : Vec n) (B : Vec n) : Vec n :=
  matVec (matMul (matMul R (diagM (invertEigenvalues eValues))) (transposeM R)) B

def solveCascade {n : ℕ} (ldltSoln lltSoln luSoln : Option (Vec n))
    (eigenDecomp : Option (Mat n × Vec n)) (B : Vec n) :
    Except String (Vec n) :=
  match ldltSoln with
  | some s => .ok s
  | none =>
    match lltSoln with
    | some s => .ok s
    | none =>
      match luSoln with
      | some s => .ok s
      | none =>
        match eigenDecomp with
        | some (R, eValues) => .ok (eigenPseudoSolve R eValues B)
        | none => .error "Unable to determine kernel solution"

/-- Claim C3: the cascading solver accepts the first tier that succeeds, in
the order LDLᵀ, LLᵀ, LU, eigen-pseudo-inverse; the pseudo-inverse maps
exactly the zero eigenvalues to a zero inverse (all others to their
reciprocal); and an exception propagates if and only if all three direct
tiers fail and the eigendecomposition itself also fails. -/
theorem solveCascade_spec {n : ℕ} (B : Vec n) :
    (∀ (s : Vec n) l2 l3 e4, solveCascade (some s) l2 l3 e4 B = .ok s) ∧
    (∀ (s : Vec n) l3 e4, solveCascade none (some s) l3 e4 B = .ok s) ∧
    (∀ (s : Vec n) e4, solveCascade none none (some s) e4 B = .ok s) ∧
    (∀ (R : Mat n) (eValues : Vec n),
      solveCascade none none none (some (R, eValues)) B =
        .ok (eigenPseudoSolve R eValues B)) ∧
    (∀ (eValues : Vec n) (i : Fin n),
      invertEigenvalues eValues i = if eValues i = 0 then 0 else 1 / eValues i) ∧
    (∀ l1 l2 l3 e4, (∃ msg, solveCascade l1 l2 l3 e4 B = .error msg) ↔
      l1 = none ∧ l2 = none ∧ l3 = none ∧ e4 = none) := by
  refine ⟨fun s l2 l3 e4 => rfl, fun s l3 e4 => rfl, fun s e4 => rfl,
    fun R eValues => rfl, ?_, ?_⟩
  · intro eValues i
    by_cases h : eValues i = 0 <;> simp [invertEigenvalues, h]
  · rintro (_ | l1) (_ | l2) (_ | l3) (_ | e4) <;> simp [solveCascade]

/-! ### C2 : `BuildSpatialKernelVisitor` constructor bookkeeping

Transcription of the constructor (SpatialModelVisitors, lines 614-664).
`_nkt` and `_nbt` are the parameter counts of the
`afwMath::PolynomialFunction2` spatial functions, which for order `o` has
`(o+1)(o+2)/2` parameters (spec §3).
-/

def polyNParams (order : ℕ) : ℕ := (order + 1) * (order + 2) / 2

def constantFirstTermOf (kernelBasisSet : String)
    (usePcaForSpatialKernel : Bool) : Bool :=
  (kernelBasisSet == "alard-lupton") || usePcaForSpatialKernel

structure SpatialVisitorState where
  nbases : ℕ
  nkt : ℕ
  nbt : ℕ
  nt : ℕ
  constantFirstTerm : Bool
  deriving DecidableEq, Repr

def mkBuildSpatialKernelVisitor (nbases : ℕ)
    (spatialKernelOrder spatialBgOrder : ℕ)
    (kernelBasisSet : String) (usePcaForSpatialKernel : Bool) :
    SpatialVisitorState :=
  let cft := constantFirstTermOf kernelBasisSet usePcaForSpatialKernel
  let nkt := polyNParams spatialKernelOrder
  let nbt := polyNParams spatialBgOrder
  { nbases := nbases
    nkt := nkt
    nbt := nbt
    nt := if cft then (nbases - 1) * nkt + 1 + nbt else nbases * nkt + nbt
    constantFirstTerm := cft }

/-- Claim C2: a `BuildSpatialKernelVisitor` over `n_b` basis kernels with
spatial-kernel/background term counts `n_kt`, `n_bt` assembles a global
system of `1 + (n_b−1)·n_kt + n_bt` unknowns when the first term is held
constant and `n_b·n_kt + n_bt` unknowns otherwise; and the first term is
held constant exactly when `kernelBasisSet` is "alard-lupton" or
`usePcaForSpatialKernel` is true. -/
theorem buildSpatialKernelVisitor_nt (nbases kOrder bgOrder : ℕ)
    (basisSet : String) (usePca : Bool) (hnb : 1 ≤ nbases) :
    (mkBuildSpatialKernelVisitor nbases kOrder bgOrder basisSet usePca).nt =
      (if (mkBuildSpatialKernelVisitor nbases kOrder bgOrder basisSet
            usePca).constantFirstTerm
        then 1 + (nbases - 1) * polyNParams kOrder + polyNParams bgOrder
        else nbases * polyNParams kOrder + polyNParams bgOrder) ∧
    ((mkBuildSpatialKernelVisitor nbases kOrder bgOrder basisSet
        usePca).constantFirstTerm = true ↔
      basisSet = "alard-lupton" ∨ usePca = true) := by
  constructor
  · by_cases hc : constantFirstTermOf basisSet usePca <;>
      simp only [mkBuildSpatialKernelVisitor, hc, if_true, if_false,
        Bool.false_eq_true, ite_true, ite_false] <;> ring
  · simp [mkBuildSpatialKernelVisitor, constantFirstTermOf,
      Bool.or_eq_true, beq_iff_eq]

/-- Witness for C2 at `n_b = 3`, spatial orders 1 and 0, Alard–Lupton basis:
the visitor holds the first term constant and assembles
`1 + 2·3 + 1 = 8` unknowns. -/
theorem buildSpatialKernelVisitor_nt_witness :
    (mkBuildSpatialKernelVisitor 3 1 0 "alard-lupton" false).nt = 8 ∧
    (mkBuildSpatialKernelVisitor 3 1 0 "alard-lupton"
      false).constantFirstTerm = true := by
  have h := buildSpatialKernelVisitor_nt 3 1 0 "alard-lupton" false
    (by decide)
  refine ⟨?_, h.2.mpr (Or.inl rfl)⟩
  rw [h.1]
  decide

/-! ### KernelCandidate (SpatialModelKernel.h / SpatialModelKernel.cc)

A candidate owns its stamp pair, the fitted kernel (represented by its
rendered pixel image, since the stored `FixedKernel` is rendered to an
image by `computeImage`), the kernel sum, the background, the per-candidate
normal equations `M`, `B`, the χ², and its cell status.  The shared-pointer
members that start out null are embedded as `Option`.

`convolveAndSubtract` (ImageSubtract.cc lines 906-937) computes
`(K⊛T + bg) − S`, then negates if `invert`; the external discrete
convolution `math::convolve` is passed in as a function argument.
-/

inductive CandStatus where
  | unknown
  | good
  | bad
  deriving DecidableEq, Repr

structure KernelCandidate where
  miToConvolve : List ℚ
  miToNotConvolve : List ℚ
  kernelImage : List ℚ
  kSum : ℚ
  background : ℚ
  mMat : Option (List (List ℚ))
  bVec : Option (List ℚ)
  chi2 : ℚ
  status : CandStatus
  haveKernel : Bool
  deriving DecidableEq, Repr

def convolveAndSubtract (conv : List ℚ → List ℚ → List ℚ)
    (imageToConvolve imageToNotConvolve kernel : List ℚ) (background : ℚ)
    (invert : Bool) : List ℚ :=
  let convolved := (conv imageToConvolve kernel).map (· + background)
  let diffim := List.zipWith (· - ·) convolved imageToNotConvolve
  if invert then diffim.map (fun p => -p) else diffim

def KernelCandidate.setKernel (c : KernelCandidate) (kernel : List ℚ) :
    KernelCandidate :=
  { c with kernelImage := kernel, kSum := kernel.sum, haveKernel := true }

def KernelCandidate.setBackground (c : KernelCandidate) (background : ℚ) :
    KernelCandidate :=
  { c with background := background }

def KernelCandidate.setStatus (c : KernelCandidate) (s : CandStatus) :
    KernelCandidate :=
  { c with status := s }

def KernelCandidate.setMB (c : KernelCandidate) (m : List (List ℚ))
    (b : List ℚ) : KernelCandidate :=
  { c with mMat := some m, bVec := some b }

def KernelCandidate.setChi2 (c : KernelCandidate) (v : ℚ) : KernelCandidate :=
  { c with chi2 := v }

@[simp]
lemma KernelCandidate.setStatus_status (c : KernelCandidate) (s : CandStatus) :
    (c.setStatus s).status = s := rfl

@[simp]
lemma KernelCandidate.setChi2_status (c : KernelCandidate) (v : ℚ) :
    (c.setChi2 v).status = c.status := rfl

def KernelCandidate.getImage (c : KernelCandidate) : Except String (List ℚ) :=
  if c.haveKernel then .ok c.kernelImage
  else .error "No Kernel to make KernelCandidate Image from"

def KernelCandidate.getKernel (c : KernelCandidate) : Except String (List ℚ) :=
  if c.haveKernel then .ok c.kernelImage
  else .error "No Kernel for KernelCandidate"

def KernelCandidate.getBackground (c : KernelCandidate) : Except String ℚ :=
  if c.haveKernel then .ok c.background
  else .error "No Kernel for KernelCandidate"

def KernelCandidate.getKsum (c : KernelCandidate) : Except String ℚ :=
  if c.haveKernel then .ok c.kSum
  else .error "No Kernel for KernelCandidate"

def KernelCandidate.returnDifferenceImageWith (c : KernelCandidate)
    (conv : List ℚ → List ℚ → List ℚ) (kernel : List ℚ) (background : ℚ) :
    Except String (List ℚ) :=
  if c.haveKernel then
    .ok (convolveAndSubtract conv c.miToConvolve c.miToNotConvolve kernel
      background true)
  else .error "No Kernel for KernelCandidate"

def KernelCandidate.returnDifferenceImage (c : KernelCandidate)
    (conv : List ℚ → List ℚ → List ℚ) : Except String (List ℚ) :=
  if c.haveKernel then
    c.returnDifferenceImageWith conv c.kernelImage c.background
  else .error "No Kernel for KernelCandidate"

/-- Claim C10: on a `KernelCandidate` on which no kernel has been set,
`getImage`, `getKernel`, `getBackground`, `getKsum` and both overloads of
`returnDifferenceImage` throw rather than returning a default; after
`setKernel` has succeeded they return the stored products without
throwing. -/
theorem kernelCandidate_accessor_guards (c : KernelCandidate)
    (conv : List ℚ → List ℚ → List ℚ) (k : List ℚ) (bg : ℚ)
    (hno : c.haveKernel = false) :
    ((∃ e, c.getImage = .error e) ∧ (∃ e, c.getKernel = .error e) ∧
     (∃ e, c.getBackground = .error e) ∧ (∃ e, c.getKsum = .error e) ∧
     (∃ e, c.returnDifferenceImage conv = .error e) ∧
     (∃ e, c.returnDifferenceImageWith conv k bg = .error e)) ∧
    (∀ knew : List ℚ,
      (c.setKernel knew).getImage = .ok knew ∧
      (c.setKernel knew).getKernel = .ok knew ∧
      (c.setKernel knew).getBackground = .ok c.background ∧
      (c.setKernel knew).getKsum = .ok knew.sum ∧
      (c.setKernel knew).returnDifferenceImage conv =
        .ok (convolveAndSubtract conv c.miToConvolve c.miToNotConvolve knew
          c.background true) ∧
      (c.setKernel knew).returnDifferenceImageWith conv k bg =
        .ok (convolveAndSubtract conv c.miToConvolve c.miToNotConvolve k bg
          true)) := by
  constructor
  · refine ⟨⟨"No Kernel to make KernelCandidate Image from", ?_⟩,
      ⟨"No Kernel for KernelCandidate", ?_⟩,
      ⟨"No Kernel for KernelCandidate", ?_⟩,
      ⟨"No Kernel for KernelCandidate", ?_⟩,
      ⟨"No Kernel for KernelCandidate", ?_⟩,
      ⟨"No Kernel for KernelCandidate", ?_⟩⟩ <;>
      simp [KernelCandidate.getImage, KernelCandidate.getKernel,
        KernelCandidate.getBackground, KernelCandidate.getKsum,
        KernelCandidate.returnDifferenceImage,
        KernelCandidate.returnDifferenceImageWith, hno]
  · intro knew
    refine ⟨?_, ?_, ?_, ?_, ?_, ?_⟩ <;>
      simp [KernelCandidate.getImage, KernelCandidate.getKernel,
        KernelCandidate.getBackground, KernelCandidate.getKsum,
        KernelCandidate.returnDifferenceImage,
        KernelCandidate.returnDifferenceImageWith, KernelCandidate.setKernel]

/-- A concrete candidate with no kernel yet, for the C10 witness. -/
def cand0 : KernelCandidate :=
  { miToConvolve := [1, 2]
    miToNotConvolve := [3, 4]
    kernelImage := []
    kSum := 0
    background := 0
    mMat := none
    bVec := none
    chi2 := 0
    status := .unknown
    haveKernel := false }

/-- Witness for C10 at the concrete candidate `cand0` (no kernel set):
`getKernel` throws, and after `setKernel [1]` it returns the kernel. -/
theorem kernelCandidate_accessor_guards_witness :
    (∃ e, cand0.getKernel = .error e) ∧
    (cand0.setKernel [1]).getKernel = .ok [1] :=
  ⟨(kernelCandidate_accessor_guards cand0 (fun t _ => t) [] 0 rfl).1.2.1,
   ((kernelCandidate_accessor_guards cand0 (fun t _ => t) [] 0 rfl).2 [1]).2.1⟩

/-! ### C6 : `KernelSumVisitor` in REJECT mode

Transcription of `KernelSumVisitor::processCandidate` (SpatialModelVisitors,
lines 123-152, REJECT branch) and `processKsumDistribution` (lines 154-167).
The clipped mean and clipped standard deviation of the aggregated kernel
sums come from the external `afwMath::makeStatistics` call and are inputs
here; `processKsumDistribution` then sets
`_dkSumMax = maxKsumSigma * _kSumStd`.  The function returns the updated
candidate together with the increment to `_nRejected`.
-/

def ksumDkSumMax (maxKsumSigma kSumStd : ℚ) : ℚ := maxKsumSigma * kSumStd

def kernelSumRejectProcess (kernelSumClipping : Bool) (kSumMean dkSumMax : ℚ)
    (c : KernelCandidate) : KernelCandidate × ℕ :=
  if kernelSumClipping then
    if |c.kSum - kSumMean| > dkSumMax then (c.setStatus .bad, 1) else (c, 0)
  else (c, 0)

/-- Claim C6: in REJECT mode, `KernelSumVisitor::processCandidate` marks a
candidate BAD and counts it as rejected if and only if `kernelSumClipping`
is true and the candidate's kernel sum deviates from the clipped mean by
strictly more than `maxKsumSigma` times the clipped standard deviation;
when `kernelSumClipping` is false the candidate is left unchanged. -/
theorem kernelSumVisitor_reject_spec (kernelSumClipping : Bool)
    (kSumMean kSumStd maxKsumSigma : ℚ) (c : KernelCandidate) :
    ((kernelSumRejectProcess kernelSumClipping kSumMean
        (ksumDkSumMax maxKsumSigma kSumStd) c).2 = 1 ↔
      (kernelSumClipping = true ∧
        |c.kSum - kSumMean| > maxKsumSigma * kSumStd)) ∧
    ((kernelSumRejectProcess kernelSumClipping kSumMean
        (ksumDkSumMax maxKsumSigma kSumStd) c).2 = 1 →
      (kernelSumRejectProcess kernelSumClipping kSumMean
        (ksumDkSumMax maxKsumSigma kSumStd) c).1 = c.setStatus .bad) ∧
    ((kernelSumRejectProcess kernelSumClipping kSumMean
        (ksumDkSumMax maxKsumSigma kSumStd) c).2 = 0 →
      (kernelSumRejectProcess kernelSumClipping kSumMean
        (ksumDkSumMax maxKsumSigma kSumStd) c).1 = c) := by
  cases kernelSumClipping with
  | false => simp [kernelSumRejectProcess]
  | true =>
    by_cases h : |c.kSum - kSumMean| > maxKsumSigma * kSumStd <;>
      simp [kernelSumRejectProcess, ksumDkSumMax, h]

/-- Witness for C6: with clipping on, clipped mean 10, clipped stddev 1,
`maxKsumSigma = 3`, a candidate whose kernel sum is 20 is marked BAD and
counted as rejected. -/
theorem kernelSumVisitor_reject_spec_witness :
    (kernelSumRejectProcess true 10 (ksumDkSumMax 3 1)
      (cand0.setKernel [20])).2 = 1 ∧
    (kernelSumRejectProcess true 10 (ksumDkSumMax 3 1)
      (cand0.setKernel [20])).1 = (cand0.setKernel [20]).setStatus .bad := by
  have h := kernelSumVisitor_reject_spec true 10 1 3 (cand0.setKernel [20])
  have h2 : (kernelSumRejectProcess true 10 (ksumDkSumMax 3 1)
      (cand0.setKernel [20])).2 = 1 := by
    exact h.1.mpr ⟨rfl, by norm_num [cand0, KernelCandidate.setKernel]⟩
  exact ⟨h2, h.2.1 h2⟩

/-! ### C5, C9 : `BuildSingleKernelVisitor::processCandidate`

Transcription of SpatialModelVisitors lines 394-568.  The external calls
made during a build (the two `kFunctor.apply`/`getSolution` invocations and
the `ImageStatistics` of the difference image) are embedded as a
`BuildOutcome` record per invocation: `applyOk`/`solnOk` say whether the
call threw, and `mean`, `rms`, `variance`, `nanMean`, `nanRms` are the
statistics of the resulting difference image.  The status decision of
lines 531-567 is `singleKernelStatus`.
-/

structure BuildOutcome where
  applyOk : Bool
  solnOk : Bool
  kernel : List ℚ
  background : ℚ
  mMat : List (List ℚ)
  bVec : List ℚ
  nanMean : Bool
  nanRms : Bool
  mean : ℚ
  rms : ℚ
  variance : ℚ
  deriving DecidableEq, Repr

def singleKernelStatus (singleKernelClipping nanMean nanRms : Bool)
    (mean rms candidateResidualMeanMax candidateResidualStdMax : ℚ) :
    CandStatus :=
  if nanMean || nanRms then .bad
  else if singleKernelClipping then
    if |mean| > candidateResidualMeanMax then .bad
    else if rms > candidateResidualStdMax then .bad
    else .good
  else .good

def buildSingleProcess (skipBuilt setCandidateKernel
    constantVarianceWeighting iterateSingleKernel singleKernelClipping :
    Bool) (meanMax stdMax : ℚ) (o o2 : BuildOutcome) (c : KernelCandidate) :
    Except String KernelCandidate :=
  if skipBuilt && c.haveKernel then .ok c
  else if !o.applyOk then .ok (c.setStatus .bad)
  else if !o.solnOk then .ok (c.setStatus .bad)
  else
    let c1 := if setCandidateKernel
      then (c.setKernel o.kernel).setBackground o.background else c
    let c2 := c1.setMB o.mMat o.bVec
    if iterateSingleKernel && !constantVarianceWeighting then
      if !o2.applyOk then .error "Unable to recalculate Kernel"
      else if !o2.solnOk then .ok (c2.setStatus .bad)
      else
        let c3 := if setCandidateKernel
          then (c2.setKernel o2.kernel).setBackground o2.background else c2
        let c4 := c3.setMB o2.mMat o2.bVec
        .ok ((c4.setChi2 o2.variance).setStatus
          (singleKernelStatus singleKernelClipping o2.nanMean o2.nanRms
            o2.mean o2.rms meanMax stdMax))
    else
      .ok ((c2.setChi2 o.variance).setStatus
        (singleKernelStatus singleKernelClipping o.nanMean o.nanRms o.mean
          o.rms meanMax stdMax))

lemma singleKernelStatus_good {nanMean nanRms : Bool}
    {mean rms meanMax stdMax : ℚ}
    (h : singleKernelStatus true nanMean nanRms mean rms meanMax stdMax =
      .good) :
    |mean| ≤ meanMax ∧ rms ≤ stdMax := by
  by_cases h1 : (nanMean || nanRms : Bool) = true
  · simp [singleKernelStatus, h1] at h
  · by_cases h2 : |mean| > meanMax
    · simp [singleKernelStatus, h1, h2] at h
    · by_cases h3 : rms > stdMax
      · simp [singleKernelStatus, h1, h2, h3] at h
      · exact ⟨le_of_not_lt h2, le_of_not_lt h3⟩

/-- The build outcome of a successful fit whose difference image has mean
residual 5 and rms 0: used to refute C5 when clipping is disabled. -/
def outcome5 : BuildOutcome :=
  { applyOk := true
    solnOk := true
    kernel := [1]
    background := 0
    mMat := [[1]]
    bVec := [1]
    nanMean := false
    nanRms := false
    mean := 5
    rms := 0
    variance := 25 }

/-- The candidate state produced by running the pass of `outcome5` on
`cand0` with `singleKernelClipping = false`. -/
def cand5Res : KernelCandidate :=
  { miToConvolve := [1, 2]
    miToNotConvolve := [3, 4]
    kernelImage := [1]
    kSum := 1
    background := 0
    mMat := some [[1]]
    bVec := some [1]
    chi2 := 25
    status := .good
    haveKernel := true }

/-- Claim C5, counterexample: with `singleKernelClipping = false` and
`candidateResidualMeanMax = 1`, a pass over a candidate whose difference
image has mean residual 5 still marks it GOOD, so a GOOD candidate need
not satisfy `|mean| ≤ candidateResidualMeanMax`. -/
theorem buildSingle_good_unbounded_counterexample :
    buildSingleProcess false true false false false 1 1 outcome5 outcome5
      cand0 = .ok cand5Res ∧
    cand5Res.status = .good ∧ ¬(|outcome5.mean| ≤ (1 : ℚ)) := by
  refine ⟨?_, rfl, by norm_num [outcome5]⟩
  norm_num [buildSingleProcess, cand0, outcome5, cand5Res,
    KernelCandidate.setKernel, KernelCandidate.setBackground,
    KernelCandidate.setMB, KernelCandidate.setChi2,
    KernelCandidate.setStatus, singleKernelStatus]

/-- Claim C5 (amended): with `singleKernelClipping` enabled, every candidate
actually processed (not skipped) by a `BuildSingleKernelVisitor` pass that
ends with status GOOD has a difference image whose absolute mean residual
is at most `candidateResidualMeanMax` and whose rms is at most
`candidateResidualStdMax`. -/
theorem buildSingle_good_residuals (skipBuilt setCand cvw iter : Bool)
    (meanMax stdMax : ℚ) (o o2 : BuildOutcome) (c c' : KernelCandidate)
    (hskip : skipBuilt = false ∨ c.haveKernel = false)
    (hres : buildSingleProcess skipBuilt setCand cvw iter true meanMax
      stdMax o o2 c = .ok c')
    (hgood : c'.status = .good) :
    if iter && !cvw then |o2.mean| ≤ meanMax ∧ o2.rms ≤ stdMax
    else |o.mean| ≤ meanMax ∧ o.rms ≤ stdMax := by
  have hsb : (skipBuilt && c.haveKernel) = false := by
    rcases hskip with h | h <;> simp [h]
  rw [buildSingleProcess, hsb] at hres
  simp only [Bool.false_eq_true, if_false] at hres
  by_cases ha : o.applyOk
  · by_cases hs : o.solnOk
    · simp only [ha, hs, Bool.not_true, Bool.false_eq_true, if_false] at hres
      by_cases hi : (iter && !cvw) = true
      · rw [hi] at hres
        simp only [if_true] at hres
        by_cases ha2 : o2.applyOk
        · by_cases hs2 : o2.solnOk
          · simp only [ha2, hs2, Bool.not_true, Bool.false_eq_true,
              if_false] at hres
            rw [hi, if_pos rfl]
            cases hres
            rw [KernelCandidate.setStatus_status] at hgood
            exact singleKernelStatus_good hgood
          · simp only [ha2, hs2, Bool.not_true, Bool.not_false,
              if_true, Bool.false_eq_true, if_false] at hres
            cases hres
            simp [KernelCandidate.setStatus] at hgood
        · simp only [ha2, Bool.not_false, if_true] at hres
          cases hres
      · simp only [Bool.not_eq_true] at hi
        rw [hi] at hres
        simp only [Bool.false_eq_true, if_false] at hres
        rw [hi]
        simp only [Bool.false_eq_true, if_false]
        cases hres
        rw [KernelCandidate.setStatus_status] at hgood
        exact singleKernelStatus_good hgood
    · simp only [ha, hs, Bool.not_true, Bool.not_false, if_true,
        Bool.false_eq_true, if_false] at hres
      cases hres
      simp [KernelCandidate.setStatus] at hgood
  · simp only [ha, Bool.not_false, if_true] at hres
    cases hres
    simp [KernelCandidate.setStatus] at hgood

/-- The build outcome of a clean fit (mean 0, rms 0), for the C5 witness. -/
def outcomeGood : BuildOutcome :=
  { applyOk := true
    solnOk := true
    kernel := [1]
    background := 0
    mMat := [[1]]
    bVec := [1]
    nanMean := false
    nanRms := false
    mean := 0
    rms := 0
    variance := 0 }

/-- The candidate state produced by running the pass of `outcomeGood` on
`cand0` with clipping enabled. -/
def candGoodRes : KernelCandidate :=
  { miToConvolve := [1, 2]
    miToNotConvolve := [3, 4]
    kernelImage := [1]
    kSum := 1
    background := 0
    mMat := some [[1]]
    bVec := some [1]
    chi2 := 0
    status := .good
    haveKernel := true }

/-- Witness for amended C5: a concrete clipped pass that ends GOOD indeed
has `|mean| ≤ 1` and `rms ≤ 1`. -/
theorem buildSingle_good_residuals_witness :
    |outcomeGood.mean| ≤ (1 : ℚ) ∧ outcomeGood.rms ≤ (1 : ℚ) :=
  buildSingle_good_residuals false true false false 1 1 outcomeGood
    outcomeGood cand0 candGoodRes (Or.inl rfl)
    (by norm_num [buildSingleProcess, cand0, outcomeGood, candGoodRes,
      KernelCandidate.setKernel, KernelCandidate.setBackground,
      KernelCandidate.setMB, KernelCandidate.setChi2,
      KernelCandidate.setStatus, singleKernelStatus]) rfl

/-- Claim C9: a `BuildSingleKernelVisitor::processCandidate` call with
`skipBuilt = true` on a candidate that already has a kernel returns
immediately: the candidate comes back unchanged (kernel, background, M, B,
χ² and status all untouched), so a second identical pass with no
intervening mutation is a no-op. -/
theorem buildSingle_skipBuilt_frame (setCand cvw iter clip : Bool)
    (meanMax stdMax : ℚ) (o o2 : BuildOutcome) (c : KernelCandidate)
    (hhave : c.haveKernel = true) :
    buildSingleProcess true setCand cvw iter clip meanMax stdMax o o2 c =
      .ok c := by
  simp [buildSingleProcess, hhave]

/-- Witness for C9 at a concrete built candidate: the pass with
`skipBuilt = true` leaves it untouched. -/
theorem buildSingle_skipBuilt_frame_witness :
    buildSingleProcess true true false false true 1 1 outcome5 outcome5
      (cand0.setKernel [7]) = .ok (cand0.setKernel [7]) :=
  buildSingle_skipBuilt_frame true false false true 1 1 outcome5 outcome5
    (cand0.setKernel [7]) rfl

/-! ### C4 : `renormalizeKernelList` (ImageSubtract.cc lines 712-778)

Kernel images are row-major pixel lists over ℚ.  `computeImage(img, true)`
renders a kernel normalized to unit sum, i.e. divides every pixel by the
pixel sum.  For each kernel after the first the source subtracts the
rendered first kernel and divides by `sqrt(Σ pixel²)`; since √ of the
rational inner product is in general irrational, the square root is passed
in as an input `s` constrained by `s·s = Σ pixel²` in the theorem. -/

def pixelSum (v : List ℚ) : ℚ := v.sum

def innerProduct (v w : List ℚ) : ℚ := (List.zipWith (· * ·) v w).sum

def normalizeToUnitSum (k : List ℚ) : List ℚ := k.map (fun p => p / k.sum)

def imageSub (a b : List ℚ) : List ℚ := List.zipWith (· - ·) a b

def renormalizeRest (image0 k : List ℚ) (s : ℚ) : List ℚ :=
  (imageSub (normalizeToUnitSum k) image0).map (fun p => p / s)

def renormalizeKernelList (kernelListIn : List (List ℚ)) (sqrts : List ℚ) :
    List (List ℚ) :=
  match kernelListIn with
  | [] => []
  | k0 :: rest =>
    normalizeToUnitSum k0 ::
      (rest.zip sqrts).map
        (fun p => renormalizeRest (normalizeToUnitSum k0) p.1 p.2)

lemma sum_map_div (l : List ℚ) (c : ℚ) :
    (l.map (fun p => p / c)).sum = l.sum / c := by
  induction l with
  | nil => simp
  | cons x xs ih => simp [ih, add_div]

lemma sum_zipWith_sub (a b : List ℚ) (h : a.length = b.length) :
    (List.zipWith (· - ·) a b).sum = a.sum - b.sum := by
  induction a generalizing b with
  | nil => cases b <;> simp_all
  | cons x xs ih =>
    cases b with
    | nil => simp_all
    | cons y ys =>
      simp only [List.length_cons, Nat.succ_inj] at h
      simp [ih ys h]
      ring

lemma innerProduct_map_div (w : List ℚ) (s : ℚ) :
    innerProduct (w.map (fun p => p / s)) (w.map (fun p => p / s)) =
      innerProduct w w / (s * s) := by
  induction w with
  | nil => simp [innerProduct]
  | cons x xs ih =>
    simp only [innerProduct, List.map_cons, List.zipWith_cons_cons,
      List.sum_cons] at ih ⊢
    rw [ih, div_mul_div_comm, add_div]

lemma length_normalizeToUnitSum (k : List ℚ) :
    (normalizeToUnitSum k).length = k.length := by
  simp [normalizeToUnitSum]

/-- Claim C4: for a non-empty kernel list, the renormalized basis returned
by `renormalizeKernelList` satisfies, in exact arithmetic: the first kernel
`B₀` has pixel sum 1, and every later kernel `Bᵢ` has pixel sum 0 and unit
inner product `⟨Bᵢ,Bᵢ⟩ = 1` — provided each input kernel has nonzero pixel
sum (so the unit-sum normalization is defined), matching dimensions, and
the square-root inputs satisfy `s·s = ⟨Bᵢ',Bᵢ'⟩ ≠ 0` for the shifted
image `Bᵢ'` being rescaled. -/
theorem renormalizeKernelList_props (k0 : List ℚ) (rest : List (List ℚ))
    (sqrts : List ℚ) (h0 : pixelSum k0 ≠ 0)
    (hrest : ∀ p ∈ rest.zip sqrts,
      pixelSum p.1 ≠ 0 ∧ p.1.length = k0.length ∧ p.2 ≠ 0 ∧
      p.2 * p.2 =
        innerProduct
          (imageSub (normalizeToUnitSum p.1) (normalizeToUnitSum k0))
          (imageSub (normalizeToUnitSum p.1) (normalizeToUnitSum k0))) :
    pixelSum ((renormalizeKernelList (k0 :: rest) sqrts).headI) = 1 ∧
    ∀ b ∈ (renormalizeKernelList (k0 :: rest) sqrts).tail,
      pixelSum b = 0 ∧ innerProduct b b = 1 := by
  have hsum0 : pixelSum (normalizeToUnitSum k0) = 1 := by
    simp only [pixelSum, normalizeToUnitSum, sum_map_div]
    exact div_self h0
  constructor
  · simpa [renormalizeKernelList] using hsum0
  · intro b hb
    simp only [renormalizeKernelList, List.tail_cons, List.mem_map] at hb
    obtain ⟨p, hp, rfl⟩ := hb
    obtain ⟨hps, hplen, hs, hss⟩ := hrest p hp
    have hlen : (normalizeToUnitSum p.1).length =
        (normalizeToUnitSum k0).length := by
      rw [length_normalizeToUnitSum, length_normalizeToUnitSum, hplen]
    have hsump : pixelSum (normalizeToUnitSum p.1) = 1 := by
      simp only [pixelSum, normalizeToUnitSum, sum_map_div]
      exact div_self hps
    constructor
    · simp only [pixelSum, renormalizeRest, sum_map_div, imageSub,
        sum_zipWith_sub _ _ hlen]
      rw [show (normalizeToUnitSum p.1).sum -
          (normalizeToUnitSum k0).sum = 0 by
        have h1 : (normalizeToUnitSum p.1).sum = 1 := hsump
        have h2 : (normalizeToUnitSum k0).sum = 1 := hsum0
        rw [h1, h2]; ring]
      simp
    · simp only [renormalizeRest, innerProduct_map_div]
      rw [← hss]
      exact div_self (mul_ne_zero hs hs)

/-- Witness for C4 at the concrete input `[[1,1,1,1],[5,-3,29,-27]]` with
square root 10: the renormalized difference image is `[1,-1,7,-7]/10`,
whose inner product with itself is `100/100 = 1`. -/
theorem renormalizeKernelList_props_witness :
    pixelSum ((renormalizeKernelList [[1, 1, 1, 1], [5, -3, 29, -27]]
      [10]).headI) = 1 ∧
    ∀ b ∈ (renormalizeKernelList [[1, 1, 1, 1], [5, -3, 29, -27]]
      [10]).tail, pixelSum b = 0 ∧ innerProduct b b = 1 :=
  renormalizeKernelList_props [1, 1, 1, 1] [[5, -3, 29, -27]] [10]
    (by norm_num [pixelSum])
    (by
      intro p hp
      simp only [List.zip_cons_cons, List.zip_nil_right, List.mem_singleton]
        at hp
      subst hp
      refine ⟨by norm_num [pixelSum], by norm_num, by norm_num, ?_⟩
      norm_num [innerProduct, imageSub, normalizeToUnitSum])

/-! ### C8 : `getCollectionOfFootprintsForPsfMatching` edge rejection

Transcription of the per-footprint filter in ImageSubtract.cc lines
1072-1160 for an image with origin (0,0).  A grown footprint survives only
if it is not too large, passes the explicit bounds test of lines 1122-1126,
the external afw sub-image extraction of its bounding box succeeds (the
`try`/`catch` of lines 1130-1139; `subimageOk` input), and neither mask has
set bits inside it.  Bounding-box corners are inclusive, so the box lies
inside a `width × height` image iff `0 ≤ x0`, `0 ≤ y0`, `x1 ≤ width-1`,
`y1 ≤ height-1`; the afw sub-image constructor throws whenever the box is
not contained in the parent image, which is the hypothesis `hsub` below. -/

structure FpBBox where
  x0 : ℤ
  y0 : ℤ
  x1 : ℤ
  y1 : ℤ
  deriving DecidableEq, Repr

def edgeCheckPasses (width height : ℤ) (b : FpBBox) : Bool :=
  !(decide (b.x0 < 0) || decide (b.y0 < 0) || decide (b.x1 > width) ||
    decide (b.y1 > height))

def bboxInsideImage (width height : ℤ) (b : FpBBox) : Bool :=
  decide (0 ≤ b.x0) && decide (0 ≤ b.y0) && decide (b.x1 ≤ width - 1) &&
    decide (b.y1 ≤ height - 1)

def footprintAccepted (width height : ℤ) (npix fpNpixMax : ℕ)
    (subimageOk maskToConvolveClean maskToNotConvolveClean : Bool)
    (b : FpBBox) : Bool :=
  !(decide (npix > fpNpixMax)) && edgeCheckPasses width height b &&
    subimageOk && maskToConvolveClean && maskToNotConvolveClean

/-- Claim C8: in `getCollectionOfFootprintsForPsfMatching`, every grown
footprint whose bounding box extends past an edge of the image to convolve
is excluded from the returned clean list (contrapositive: an accepted
footprint lies entirely inside the image), given that the external afw
sub-image extraction succeeds only on boxes contained in the image. -/
theorem footprintAccepted_inside (width height : ℤ) (npix fpNpixMax : ℕ)
    (subimageOk itcClean itncClean : Bool) (b : FpBBox)
    (hsub : subimageOk = true → bboxInsideImage width height b = true)
    (hacc : footprintAccepted width height npix fpNpixMax subimageOk
      itcClean itncClean b = true) :
    bboxInsideImage width height b = true := by
  simp only [footprintAccepted, Bool.and_eq_true] at hacc
  exact hsub hacc.1.1.2

/-- Witness for C8: a 6×5 box inside a 10×10 image, passing all filters,
is indeed inside. -/
theorem footprintAccepted_inside_witness :
    bboxInsideImage 10 10 ⟨1, 1, 6, 5⟩ = true :=
  footprintAccepted_inside 10 10 3 100 true true true ⟨1, 1, 6, 5⟩
    (fun _ => by decide) (by decide)

/-! ### C7 : `generateFiniteDifferenceRegularization`
    (ImageSubtract.cc lines 495-703)

Transcription of the stencil tables and of the matrix fill loop for the
wrapped boundary (`boundary_style = 1`).  `difference_style` (`ds`) selects
the forward (0) or central (1) coefficient table; `order` selects the
derivative order.  Every coefficient is a small integer and the loop only
assigns, multiplies and adds them, so the `double` arithmetic of the source
is exact and the embedding uses ℤ.

The C++ inner loop executes `B(i, y*width + x) = this_coeff` — an
*assignment*, not an accumulation — for `dx` in `[0, x_size)` (outer) and
`dy` in `[0, y_size)` (inner); `fdRow` replays those writes in loop order
with `Function.update`, so a later write to the same wrapped position
overwrites an earlier one exactly as in the source.  `fdMatB` is the matrix
`B` including the empty trailing background row/column, `fdMatH` is
`H = Bᵀ·B`, and `fdRowSumH` is a row sum of `H`.
-/

def forwardCoeffs : List (List (List ℤ)) :=
  [[[-2, 1], [1, 0]],
   [[-2, 2, -1], [2, 0, 0], [-1, 0, 0]],
   [[-2, 3, -3, 1], [3, 0, 0, 0], [-3, 0, 0, 0], [1, 0, 0, 0]]]

def centralCoeffs : List (List (List ℤ)) :=
  [[[0, -1, 0], [-1, 0, 1], [0, 1, 0]],
   [[0, 1, 0], [1, -4, 1], [0, 1, 0]],
   [[0, 0, -1, 0, 0], [0, 0, 2, 0, 0], [-1, 2, 0, -2, 1], [0, 0, -2, 0, 0],
    [0, 0, 1, 0, 0]]]

def coeffAt (ds order dx dy : ℕ) : ℤ :=
  ((((if ds = 0 then forwardCoeffs else centralCoeffs).getD order []).getD dx []).getD dy 0)

def stencilCen (ds order : ℕ) : ℕ :=
  if ds = 0 then 0 else if order ≤ 1 then 1 else 2

def stencilSize (ds order : ℕ) : ℕ :=
  if ds = 0 then order + 2 else if order ≤ 1 then 3 else 5

def loopPairs (nx ny : ℕ) : List (ℕ × ℕ) :=
  (List.range nx).flatMap (fun dx => (List.range ny).map (fun dy => (dx, dy)))

def fdTarget (w h x0 y0 cen dx dy : ℕ) : ℕ :=
  ((h + y0 + dy - cen) % h) * w + ((w + x0 + dx - cen) % w)

def fdRow (w h ds order i : ℕ) : ℕ → ℤ :=
  (loopPairs (stencilSize ds order) (stencilSize ds order)).foldl
    (fun f p => Function.update f
      (fdTarget w h (i % w) (i / w) (stencilCen ds order) p.1 p.2)
      (coeffAt ds order p.1 p.2))
    (fun _ => 0)

def fdMatB (w h ds order i j : ℕ) : ℤ :=
  if i < w * h then fdRow w h ds order i j else 0

def fdMatH (w h ds order i j : ℕ) : ℤ :=
  ∑ k in Finset.range (w * h + 1), fdMatB w h ds order k i * fdMatB w h ds order k j

def fdRowSumH (w h ds order i : ℕ) : ℤ :=
  ∑ j in Finset.range (w * h + 1), fdMatH w h ds order i j

lemma fdRow_zero_forward (w h i : ℕ) :
    fdRow w h 0 0 i = Function.update (Function.update (Function.update
      (Function.update (fun _ => (0:ℤ)) (fdTarget w h (i % w) (i / w) 0 0 0) (-2))
      (fdTarget w h (i % w) (i / w) 0 0 1) 1)
      (fdTarget w h (i % w) (i / w) 0 1 0) 1)
      (fdTarget w h (i % w) (i / w) 0 1 1) 0 := rfl

lemma fdTarget_lt (w h x0 y0 dx dy : ℕ) (hw : 0 < w) (hh : 0 < h) :
    fdTarget w h x0 y0 0 dx dy < w * h := by
  unfold fdTarget
  have hy : (h + y0 + dy - 0) % h < h := Nat.mod_lt _ hh
  have hx : (w + x0 + dx - 0) % w < w := Nat.mod_lt _ hw
  calc ((h + y0 + dy - 0) % h) * w + (w + x0 + dx - 0) % w
      < ((h + y0 + dy - 0) % h) * w + w := by omega
    _ = (((h + y0 + dy - 0) % h) + 1) * w := by ring
    _ ≤ h * w := Nat.mul_le_mul_right w (by omega)
    _ = w * h := Nat.mul_comm h w

lemma mod_succ_ne (w x : ℕ) (hw : 2 ≤ w) : (x + 1) % w ≠ x % w := by
  intro heq
  have h1 : x ≡ x + 1 [MOD w] := heq.symm
  have h2 : w ∣ (x + 1) - x := (Nat.modEq_iff_dvd' (Nat.le_succ x)).mp h1
  simp only [Nat.add_sub_cancel_left] at h2
  have := Nat.le_of_dvd (by omega) h2
  omega

lemma rowmajor_inj (w a a' b b' : ℕ) (hb : b < w) (hb' : b' < w)
    (h : a * w + b = a' * w + b') : a = a' ∧ b = b' := by
  have hw : 0 < w := by omega
  have h1 : b = b' := by
    have := congrArg (· % w) h
    simpa [Nat.mul_comm, Nat.mul_add_mod, Nat.mod_eq_of_lt hb,
      Nat.mod_eq_of_lt hb'] using this
  subst h1
  refine ⟨?_, rfl⟩
  have := Nat.eq_of_mul_eq_mul_right hw (by omega : a * w = a' * w)
  exact this

lemma fdRow_rowsum (w h : ℕ) (hw : 2 ≤ w) (hh : 2 ≤ h) (i : ℕ) :
    ∑ j in Finset.range (w * h + 1), fdRow w h 0 0 i j = 0 := by
  have hw0 : 0 < w := by omega
  have hh0 : 0 < h := by omega
  set x0 := i % w with hx0
  set y0 := i / w with hy0
  have hxa : (w + x0) % w < w := Nat.mod_lt _ hw0
  have hxb : (w + x0 + 1) % w < w := Nat.mod_lt _ hw0
  have hxne : (w + x0 + 1) % w ≠ (w + x0) % w := mod_succ_ne w (w + x0) hw
  have hyne : (h + y0 + 1) % h ≠ (h + y0) % h := mod_succ_ne h (h + y0) hh
  set t00 := fdTarget w h x0 y0 0 0 0 with ht00
  set t01 := fdTarget w h x0 y0 0 0 1 with ht01
  set t10 := fdTarget w h x0 y0 0 1 0 with ht10
  set t11 := fdTarget w h x0 y0 0 1 1 with ht11
  have e00 : t00 = ((h + y0) % h) * w + ((w + x0) % w) := rfl
  have e01 : t01 = ((h + y0 + 1) % h) * w + ((w + x0) % w) := rfl
  have e10 : t10 = ((h + y0) % h) * w + ((w + x0 + 1) % w) := rfl
  have e11 : t11 = ((h + y0 + 1) % h) * w + ((w + x0 + 1) % w) := rfl
  have n0001 : t00 ≠ t01 := by
    rw [e00, e01]; intro he
    exact hyne (rowmajor_inj w _ _ _ _ hxa hxa he).1.symm
  have n0010 : t00 ≠ t10 := by
    rw [e00, e10]; intro he
    exact hxne (rowmajor_inj w _ _ _ _ hxa hxb he).2.symm
  have n0011 : t00 ≠ t11 := by
    rw [e00, e11]; intro he
    exact hyne (rowmajor_inj w _ _ _ _ hxa hxb he).1.symm
  have n0110 : t01 ≠ t10 := by
    rw [e01, e10]; intro he
    exact hyne (rowmajor_inj w _ _ _ _ hxa hxb he).1
  have n0111 : t01 ≠ t11 := by
    rw [e01, e11]; intro he
    exact hxne (rowmajor_inj w _ _ _ _ hxa hxb he).2.symm
  have n1011 : t10 ≠ t11 := by
    rw [e10, e11]; intro he
    exact hyne (rowmajor_inj w _ _ _ _ hxb hxb he).1.symm
  have hpoint : ∀ j, fdRow w h 0 0 i j =
      (if j = t00 then (-2 : ℤ) else 0) + (if j = t01 then 1 else 0) +
      (if j = t10 then 1 else 0) := by
    intro j
    rw [fdRow_zero_forward]
    simp only [Function.update_apply, ← hx0, ← hy0, ← ht00, ← ht01, ← ht10,
      ← ht11]
    by_cases h11 : j = t11 <;> by_cases h10 : j = t10 <;>
      by_cases h01 : j = t01 <;> by_cases h00 : j = t00 <;>
      simp_all
  rw [Finset.sum_congr rfl (fun j _ => hpoint j)]
  rw [Finset.sum_add_distrib, Finset.sum_add_distrib]
  rw [Finset.sum_ite_eq' (Finset.range (w * h + 1)) t00 (fun _ => (-2 : ℤ)),
    Finset.sum_ite_eq' (Finset.range (w * h + 1)) t01 (fun _ => (1 : ℤ)),
    Finset.sum_ite_eq' (Finset.range (w * h + 1)) t10 (fun _ => (1 : ℤ))]
  have m00 : t00 ∈ Finset.range (w * h + 1) := by
    rw [Finset.mem_range]
    exact lt_trans (fdTarget_lt w h x0 y0 0 0 hw0 hh0) (by omega)
  have m01 : t01 ∈ Finset.range (w * h + 1) := by
    rw [Finset.mem_range]
    exact lt_trans (fdTarget_lt w h x0 y0 0 1 hw0 hh0) (by omega)
  have m10 : t10 ∈ Finset.range (w * h + 1) := by
    rw [Finset.mem_range]
    exact lt_trans (fdTarget_lt w h x0 y0 1 0 hw0 hh0) (by omega)
  rw [if_pos m00, if_pos m01, if_pos m10]
  ring

lemma fdMatB_rowsum (w h : ℕ) (hw : 2 ≤ w) (hh : 2 ≤ h) (k : ℕ) :
    ∑ j in Finset.range (w * h + 1), fdMatB w h 0 0 k j = 0 := by
  by_cases hk : k < w * h
  · simp only [fdMatB, if_pos hk]
    exact fdRow_rowsum w h hw hh k
  · simp [fdMatB, hk]

lemma fdRow_last (w h : ℕ) (hw0 : 0 < w) (hh0 : 0 < h) (k : ℕ) :
    fdRow w h 0 0 k (w * h) = 0 := by
  have l00 := fdTarget_lt w h (k % w) (k / w) 0 0 hw0 hh0
  have l01 := fdTarget_lt w h (k % w) (k / w) 0 1 hw0 hh0
  have l10 := fdTarget_lt w h (k % w) (k / w) 1 0 hw0 hh0
  have l11 := fdTarget_lt w h (k % w) (k / w) 1 1 hw0 hh0
  rw [fdRow_zero_forward]
  simp only [Function.update_apply]
  rw [if_neg (by omega), if_neg (by omega), if_neg (by omega),
    if_neg (by omega)]

/-- Claim C7 (amended): for every width ≥ 2 and height ≥ 2, the matrix H
returned by `generateFiniteDifferenceRegularization` with order 0, forward
differencing and wrapped boundary has every row summing to 0 (in exact
arithmetic), and the final background row is entirely zero. -/
theorem fdRegularization_wrapped_order0 (w h : ℕ) (hw : 2 ≤ w) (hh : 2 ≤ h) :
    (∀ i, fdRowSumH w h 0 0 i = 0) ∧
    (∀ j, fdMatH w h 0 0 (w * h) j = 0) := by
  constructor
  · intro i
    unfold fdRowSumH fdMatH
    rw [Finset.sum_comm]
    refine Finset.sum_eq_zero (fun k _ => ?_)
    rw [← Finset.mul_sum, fdMatB_rowsum w h hw hh k, mul_zero]
  · intro j
    unfold fdMatH
    refine Finset.sum_eq_zero (fun k _ => ?_)
    have hz : fdMatB w h 0 0 k (w * h) = 0 := by
      by_cases hk : k < w * h
      · simp only [fdMatB, if_pos hk]
        exact fdRow_last w h (by omega) (by omega) k
      · simp [fdMatB, hk]
    rw [hz, zero_mul]

/-- Claim C7, counterexample: at width 2, height 1 the wrapped stencil
writes collide (height-1 wrapping maps `dy = 0` and `dy = 1` to the same
row), the assignment semantics keeps only the last write, and row 0 of the
returned H sums to 1, not 0. -/
theorem fdRegularization_counterexample :
    fdRowSumH 2 1 0 0 0 = 1 ∧ (1 : ℤ) ≠ 0 := by
  refine ⟨by decide, by decide⟩

/-- Witness for amended C7 at width 2, height 2: row 0 of H sums to 0 and
the background row entry (4,0) is zero. -/
theorem fdRegularization_witness :
    fdRowSumH 2 2 0 0 0 = 0 ∧ fdMatH 2 2 0 0 4 0 = 0 :=
  ⟨(fdRegularization_wrapped_order0 2 2 (by norm_num) (by norm_num)).1 0,
   (fdRegularization_wrapped_order0 2 2 (by norm_num) (by norm_num)).2 0⟩

end IpDiffim
